import Mathlib

/-!
Shallow embedding of the Contact Graph Scheduling (CGS) engine
(`node.py`, `analytics.py`) for checking the natural-language
specification against the code.

Times, sizes, rates and volumes are modelled as rationals (the source
uses Python floats).  Python dicts are modelled as association lists in
insertion order (`alookup` finds the first matching key, `aupdate`
replaces the first occurrence in place or appends at the end, exactly
like `d[k] = v`).  The modules `scheduling.py`, `bundles.py` and
`routing.py` are imported by `node.py` but are not part of the provided
sources; the few definitions taken from them are modelled from the
specification and marked as such in their doc comments.
-/

namespace CGS

/-- Task status values used by `node.py` / `analytics.py` and §3 of the spec. -/
inductive TaskStatus where
  | pending
  | rescheduled
  | acquired
  | delivered
  | failed
deriving DecidableEq, Repr

/-- Request status values (spec §3). -/
inductive RequestStatus where
  | submitted
  | accepted
  | acquired
  | delivered
  | failed
deriving DecidableEq, Repr

/-- A Task record (spec §3; the `Task` dataclass lives in the absent
`scheduling.py`, its fields are those read by `node.py`/`analytics.py`
and listed in the spec's data model). -/
structure Task where
  uid : Nat
  target : Nat
  pickup_time : ℚ
  destination : Nat
  size : ℚ
  priority : Nat
  deadline_acquisition : ℚ
  deadline_delivery : ℚ
  lifetime : ℚ
  assignee : Nat
  request_ids : List Nat
  status : TaskStatus
  updated_at : ℚ
deriving DecidableEq, Repr

/-- A Request record (spec §3). -/
structure Request where
  uid : Nat
  target_id : Nat
  destination : Nat
  size : ℚ
  priority : Nat
  time_created : ℚ
  deadline : ℚ
  status : RequestStatus
deriving DecidableEq, Repr

/-- A Contact of the contact plan (spec §3).  `volume` is the mutable
residual-volume attribute; during bundle assignment the mutation is
tracked in a `Nat → ℚ` map keyed by `uid` (see `debit_hops`), since the
source mutates the shared `Contact` objects in place. -/
structure Contact where
  uid : Nat
  frm : Nat
  «to» : Nat
  start : ℚ
  tEnd : ℚ
  rate : ℚ
  owlt : ℚ
  volume : ℚ
deriving DecidableEq, Repr

instance : Inhabited Contact := ⟨⟨0, 0, 0, 0, 0, 0, 0, 0⟩⟩

/-- A Route (spec §3): an ordered hop sequence with its recorded
best delivery time and bottleneck volume.  `Route` is constructed by the
absent `routing.py`; `node.py` only reads these three fields. -/
structure Route where
  hops : List Contact
  best_delivery_time : ℚ
  volume : ℚ
deriving DecidableEq, Repr

/-- A Bundle (spec §3; the dataclass lives in the absent `bundles.py`,
fields are those constructed in `Node._target_contact_procedure` and
read elsewhere in `node.py`). -/
structure Bundle where
  src : Nat
  dst : Nat
  target_id : Nat
  size : ℚ
  deadline : ℚ
  created_at : ℚ
  priority : Nat
  task_id : Nat
  hop_count : Nat := 0
  previous_node : Option Nat := none
deriving DecidableEq, Repr

/-- Modelled from the spec: the `Buffer` class lives in the absent
`bundles.py`; §3 describes it as a capacity-bounded bundle store, and
`node.py` uses `append`, `extract`, `is_empty` and
`capacity_remaining`. -/
structure Buffer where
  capacity : ℚ
  bundles : List Bundle := []
deriving DecidableEq, Repr

/-- Modelled from the spec: remaining capacity of the bundle store. -/
def Buffer.capacity_remaining (bf : Buffer) : ℚ :=
  bf.capacity - (bf.bundles.map Bundle.size).sum

/-- Modelled from the spec: add a bundle to the store (capacity is
checked by the callers in `node.py`, not here). -/
def Buffer.append (bf : Buffer) (b : Bundle) : Buffer :=
  { bf with bundles := bf.bundles ++ [b] }

/-- Python-dict lookup on an insertion-ordered association list. -/
def alookup {β : Type} : List (Nat × β) → Nat → Option β
  | [], _ => none
  | e :: rest, k => if e.1 = k then some e.2 else alookup rest k

/-- Python-dict store `d[k] = v`: replace the first occurrence of the
key in place, or append a fresh entry at the end. -/
def aupdate {β : Type} : List (Nat × β) → Nat → β → List (Nat × β)
  | [], k, v => [(k, v)]
  | e :: rest, k, v => if e.1 = k then (k, v) :: rest else e :: aupdate rest k v

/-- Rank of a status inside the dominance order of spec §4.6:
`pending < rescheduled < acquired`, everything non-delivered below
`failed`, and `delivered` on top. -/
def TaskStatus.rank : TaskStatus → Nat
  | .pending => 0
  | .rescheduled => 1
  | .acquired => 2
  | .failed => 3
  | .delivered => 4

/-- Modelled from the spec: `Task.__lt__` lives in the absent
`scheduling.py`.  Spec §4.6: `task_a < task_b` iff `task_b` has a later
`updated_at`, or an equal `updated_at` with a dominating status, with
`delivered` absorbing — a delivered local entry is never downgraded, and
a delivered remote entry wins even against a later `updated_at`
(scenario S5). -/
def Task.lt (a b : Task) : Bool :=
  if a.status = .delivered then false
  else if b.status = .delivered then true
  else if a.updated_at < b.updated_at then true
  else if b.updated_at < a.updated_at then false
  else a.status.rank < b.status.rank

/-- `Node._merge_task_tables` (node.py:445-459): for each entry of the
received table, insert it if the id is unknown, replace the local entry
if it is dominated (`<`), and raise the `_task_table_updated` flag on
every insert or replacement.  The source checks membership against the
keys the local table had on entry; since a Python dict never holds
duplicate keys, checking the current table (as done here) agrees with it
whenever the received table's keys are distinct. -/
def merge_task_tables (tbl : List (Nat × Task)) (flag : Bool) :
    List (Nat × Task) → List (Nat × Task) × Bool
  | [] => (tbl, flag)
  | (id, t) :: rest =>
    match alookup tbl id with
    | none => merge_task_tables (aupdate tbl id t) true rest
    | some l =>
      if Task.lt l t then merge_task_tables (aupdate tbl id t) true rest
      else merge_task_tables tbl flag rest

/-- The Bundle built at node.py:160-169 when a task is picked up from a
target. -/
def mk_pickup_bundle (uid : Nat) (t_now : ℚ) (target : Nat) (task : Task) : Bundle :=
  { src := uid
    dst := task.destination
    target_id := target
    size := task.size
    deadline := min task.deadline_delivery (t_now + task.lifetime)
    created_at := t_now
    priority := task.priority
    task_id := task.uid }

/-- `Node._target_contact_procedure` (node.py:153-175): walk the task table
in insertion order; for every task whose pickup time is now and whose
target is the contact's receiver, append a fresh bundle to the buffer and
mark the task `acquired`.  Returns the updated task table and buffer. -/
def target_contact_procedure (uid : Nat) (t_now : ℚ) (target : Nat) :
    List (Nat × Task) → Buffer → List (Nat × Task) × Buffer
  | [], bf => ([], bf)
  | (id, task) :: rest, bf =>
    if task.pickup_time = t_now ∧ task.target = target then
      let r := target_contact_procedure uid t_now target rest
        (bf.append (mk_pickup_bundle uid t_now target task))
      ((id, { task with status := TaskStatus.acquired }) :: r.1, r.2)
    else
      let r := target_contact_procedure uid t_now target rest bf
      ((id, task) :: r.1, r.2)

/-- The check of `Node._task_already_servicing_request` (node.py:127-129):
same target, and pickup at or after the request's creation time. -/
def servicing (task : Task) (request : Request) : Bool :=
  decide (task.target = request.target_id) &&
    decide (request.time_created ≤ task.pickup_time)

/-- `Node._task_already_servicing_request` (node.py:112-130): the first task
in the table that could service the request, if any. -/
def task_already_servicing_request (tt : List (Nat × Task)) (request : Request) :
    Option Task :=
  (tt.map Prod.snd).find? (fun task => servicing task request)

/-- The in-place `task_.request_ids.append(request.uid)` of node.py:89: the
first servicing task in the table gets the request's uid appended. -/
def append_request_uid (request : Request) : List (Nat × Task) → List (Nat × Task)
  | [] => []
  | e :: rest =>
    if servicing e.2 request then
      (e.1, { e.2 with request_ids := e.2.request_ids ++ [request.uid] }) :: rest
    else e :: append_request_uid request rest

/-- Outcome of processing one request: the task table, the
`_task_table_updated` flag, and whether a `request_duplicated` event was
published. -/
structure ProcessResult where
  task_table : List (Nat × Task)
  task_table_updated : Bool
  duplicated : Bool
deriving DecidableEq, Repr

/-- One pass of the `while` body of `Node._process_requests`
(node.py:82-110) on a single request.  `schedule_task` stands for
`Scheduler.schedule_task` (in the absent `scheduling.py`); when it yields
a task the task is stored under its uid and the update flag raised. -/
def process_request (request_duplication : Bool)
    (schedule_task : Request → Option Task)
    (tt : List (Nat × Task)) (flag : Bool) (request : Request) : ProcessResult :=
  match (if request_duplication then task_already_servicing_request tt request
         else none) with
  | some _ => ⟨append_request_uid request tt, flag, true⟩
  | none =>
    match schedule_task request with
    | some task => ⟨aupdate tt task.uid task, true, false⟩
    | none => ⟨tt, flag, false⟩

/-- Modelled from the spec: `candidate_routes` lives in the absent
`routing.py`.  §4.3: drop routes with an excluded receiving node, routes
whose bottleneck volume cannot hold the bundle, routes delivering after
the bundle's deadline, and routes containing an expired contact; return
the rest sorted by best delivery time ascending.  (The §4.3 recomputation
of the bottleneck residual volume is read off the Route's recorded
`volume` field, the only bottleneck value `node.py` observes.)  The
`plan` argument is kept for signature fidelity. -/
def candidate_routes (t_now : ℚ) (selfUid : Nat) (plan : List Contact)
    (b : Bundle) (routes : List Route) (excluded_nodes : List Nat) : List Route :=
  (routes.filter (fun r =>
      r.hops.all (fun h => decide (h.«to» ∉ excluded_nodes)) &&
      r.hops.all (fun h => decide (t_now < h.tEnd)) &&
      decide (b.size ≤ r.volume) &&
      decide (r.best_delivery_time ≤ b.deadline))).mergeSort
    (fun r s => decide (r.best_delivery_time ≤ s.best_delivery_time))

/-- The route-selection loop of `Node._bundle_assignment` (node.py:364-414):
skip a candidate whose best delivery time misses the bundle's deadline
(node.py:376-377) or whose volume cannot hold the bundle (node.py:402-403),
and take the first remaining one.  (The hop-expiry `for` loop at
node.py:386-388 only executes `continue` and has no effect.) -/
def select_route (b : Bundle) : List Route → Option Route
  | [] => none
  | r :: rest =>
    if b.deadline < r.best_delivery_time then select_route b rest
    else if r.volume < b.size then select_route b rest
    else some r

/-- `Node._contact_resource_update` (node.py:432-443) applied to every hop
of the selected route (node.py:412-413): `contact.volume -= data_size` on
the shared `Contact` objects, modelled on a volume map keyed by contact
uid. -/
def debit_hops (vols : Nat → ℚ) (hops : List Contact) (sz : ℚ) : Nat → ℚ :=
  hops.foldl (fun v h => fun k => if k = h.uid then v k - sz else v k) vols

/-- `self.outbound_queues[route.hops[0].to].append(b)` (node.py:409).  (A
missing key raises in Python; modelled as a no-op, and the theorems that
need it carry the key-presence hypothesis.) -/
def enqueue_obq (obqs : List (Nat × List Bundle)) (n : Nat) (b : Bundle) :
    List (Nat × List Bundle) :=
  match alookup obqs n with
  | some q => aupdate obqs n (q ++ [b])
  | none => obqs

/-- The node state read and written by `Node._bundle_assignment` apart
from the buffer, which is threaded separately (the source drains it with
`Buffer.extract` until empty). -/
structure AssignState where
  outbound_queues : List (Nat × List Bundle)
  volumes : Nat → ℚ
  drop_list : List Bundle

/-- The body of the `while` loop of `Node._bundle_assignment`
(node.py:340-418) for one extracted bundle: compute the candidate routes,
select the first feasible one, and either enqueue the bundle on the first
hop's receiver while debiting every hop, or append it to the drop list. -/
def assign_bundle (route_table : Nat → List Route) (plan : List Contact)
    (uid : Nat) (t_now : ℚ) (st : AssignState) (b : Bundle) : AssignState :=
  match select_route b (candidate_routes t_now uid plan b (route_table b.dst) []) with
  | some route =>
    { st with
      outbound_queues := enqueue_obq st.outbound_queues route.hops.headI.«to» b
      volumes := debit_hops st.volumes route.hops b.size }
  | none => { st with drop_list := st.drop_list ++ [b] }

/-- `Node._bundle_assignment` (node.py:330-418): extract bundles from the
buffer until it is empty, assigning each in turn; returns the remaining
buffer contents alongside the final state. -/
def bundle_assignment (route_table : Nat → List Route) (plan : List Contact)
    (uid : Nat) (t_now : ℚ) :
    List Bundle → AssignState → List Bundle × AssignState
  | [], st => ([], st)
  | b :: rest, st =>
    bundle_assignment route_table plan uid t_now rest
      (assign_bundle route_table plan uid t_now st b)

/-- All bundles sitting in outbound queues. -/
def obq_flatten (obqs : List (Nat × List Bundle)) : List Bundle :=
  (obqs.map Prod.snd).flatten

/-- Result of one body execution of the bundle-forwarding loop of
`Node._node_contact_procedure`; `sent` carries the transmitted bundle
with its arrival time at the receiver, i.e. the time at which
`_bundle_send` (node.py:265-287) fires `bundle_receive` on the
neighbour. -/
structure SendStepResult where
  now : ℚ
  outbound_queue : List Bundle
  failed_bundles : List Bundle
  sent : Option (Bundle × ℚ)
deriving Repr

/-- One iteration of the sending loop of `Node._node_contact_procedure`
(node.py:205-238) once the outbound queue is reached: pop the head
bundle, and either transmit it — when it fits in the remaining contact
time — stamping `previous_node` and waiting out the transmission time, or
defer it to the `failed_bundles` list.  (`update_age`, from the absent
`bundles.py`, touches no field this step reports and is not modelled.) -/
def contact_send_step (uid : Nat) (contact : Contact) (now : ℚ)
    (obq : List Bundle) (failed : List Bundle) : SendStepResult :=
  match obq with
  | [] => ⟨now, [], failed, none⟩
  | b :: rest =>
    let send_time := b.size / contact.rate
    if contact.tEnd - now ≥ send_time then
      ⟨now + send_time, rest, failed,
        some ({ b with previous_node := some uid }, now + contact.owlt + send_time)⟩
    else
      ⟨now, rest, failed ++ [b], none⟩

/-- The node state touched when a contact closes. -/
structure ContactEndState where
  buffer : Buffer
  outbound_queues : List (Nat × List Bundle)
  volumes : Nat → ℚ

/-- The contact-close handling at node.py:242-245: every deferred bundle
and everything still in the neighbour's outbound queue is appended to the
buffer.  The source neither clears the outbound queue nor touches any
contact volume here (`return_outbound_queue_to_buffer`, node.py:420-430,
would replenish volumes but has no caller). -/
def contact_end (st : ContactEndState) (n : Nat) (failed : List Bundle) :
    ContactEndState :=
  { st with
    buffer := (failed ++ (alookup st.outbound_queues n).getD []).foldl
      Buffer.append st.buffer }

/-- `self.task_table[id].status = s` (a missing key raises in Python;
modelled as a no-op). -/
def set_task_status (tt : List (Nat × Task)) (id : Nat) (s : TaskStatus) :
    List (Nat × Task) :=
  match alookup tt id with
  | some tk => aupdate tt id { tk with status := s }
  | none => tt

/-- The node state read and written by `Node.bundle_receive`. -/
structure ReceiveState where
  buffer : Buffer
  task_table : List (Nat × Task)
  task_table_updated : Bool
  delivered_bundles : List Bundle
deriving DecidableEq, Repr

/-- `Node.bundle_receive` (node.py:289-320) for a data bundle
(`is_task_table=False`; task tables go to `_merge_task_tables` instead):
refuse the bundle when it does not fit in the buffer; otherwise bump its
hop count and either record the delivery — when this node is the
destination, also marking the task delivered if the table is non-empty —
or store the bundle in the buffer. -/
def bundle_receive (uid : Nat) (st : ReceiveState) (t_now : ℚ) (bundle : Bundle) :
    ReceiveState :=
  if st.buffer.capacity_remaining < bundle.size then st
  else
    let b := { bundle with hop_count := bundle.hop_count + 1 }
    if b.dst = uid then
      { st with
        delivered_bundles := st.delivered_bundles ++ [b]
        task_table := if st.task_table = [] then st.task_table
          else set_task_status st.task_table b.task_id TaskStatus.delivered
        task_table_updated := if st.task_table = [] then st.task_table_updated
          else true }
    else
      { st with buffer := st.buffer.append b }

/-- Modelled from the spec: `Task.failed(t, on)` lives in the absent
`scheduling.py`; per §4.7/§7 it moves the task to the `failed` status
(the failure time and node are bookkeeping not tracked here). -/
def Task.fail (tk : Task) : Task := { tk with status := TaskStatus.failed }

/-- The analytics log state touched by `Analytics.fail_task`. -/
structure AnalyticsState where
  tasks : List (Nat × Task)
  requests : List (Nat × Request)
deriving DecidableEq, Repr

/-- `Analytics.fail_task` (analytics.py:36-41): a task already `delivered`
is left untouched; otherwise the task is failed and the status of its
first originating request is set to `failed`.  (Python raises on a
missing key; those branches are modelled as no-ops.) -/
def fail_task (st : AnalyticsState) (task : Nat) (t : ℚ) (on_node : Nat) :
    AnalyticsState :=
  match alookup st.tasks task with
  | none => st
  | some tk =>
    if tk.status = TaskStatus.delivered then st
    else
      { tasks := aupdate st.tasks task tk.fail
        requests :=
          match alookup st.requests (tk.request_ids.headD 0) with
          | some r => aupdate st.requests (tk.request_ids.headD 0)
              { r with status := RequestStatus.failed }
          | none => st.requests }

/-- The value an entry of the local task table holds after merging remote
task `t` into it (`none` when the id was previously unknown). -/
def merge_value (loc : Option Task) (t : Task) : Task :=
  match loc with
  | none => t
  | some l => if Task.lt l t then t else l

/-- Whether merging remote task `t` over the given local entry inserts or
replaces (node.py:454-459). -/
def entry_changes (loc : Option Task) (t : Task) : Bool :=
  match loc with
  | none => true
  | some l => Task.lt l t

/-- Concrete task used to exercise the target-pickup procedure: due for
pickup at time 5 from target 2, but assigned to node 7. -/
def ex_task_unassigned : Task :=
  { uid := 0, target := 2, pickup_time := 5, destination := 8, size := 1,
    priority := 0, deadline_acquisition := 20, deadline_delivery := 30,
    lifetime := 40, assignee := 7, request_ids := [9],
    status := TaskStatus.pending, updated_at := 10 }

/-- Concrete task whose delivery deadline (20) is earlier than the deadline
of `ex_request_wide` (50). -/
def ex_task_narrow : Task :=
  { uid := 4, target := 3, pickup_time := 10, destination := 8, size := 1,
    priority := 0, deadline_acquisition := 15, deadline_delivery := 20,
    lifetime := 40, assignee := 7, request_ids := [9],
    status := TaskStatus.pending, updated_at := 10 }

/-- Concrete request for target 3 with deadline 50. -/
def ex_request_wide : Request :=
  { uid := 30, target_id := 3, destination := 8, size := 1, priority := 0,
    time_created := 5, deadline := 50, status := RequestStatus.submitted }

/-- Concrete delivered task (for the failure-report claims). -/
def ex_task_delivered : Task :=
  { ex_task_narrow with uid := 4, status := TaskStatus.delivered }

/-- Concrete analytics log holding one delivered task and its request. -/
def ex_analytics : AnalyticsState :=
  ⟨[(4, ex_task_delivered)], [(9, ex_request_wide)]⟩

/-- Concrete receive state with a buffer of capacity 1 holding nothing. -/
def ex_recv_state : ReceiveState := ⟨⟨1, []⟩, [], false, []⟩

/-- Concrete bundle of size 5 (too big for `ex_recv_state`). -/
def ex_big_bundle : Bundle :=
  { src := 1, dst := 8, target_id := 2, size := 5, deadline := 30,
    created_at := 0, priority := 0, task_id := 0 }

/-- Concrete bundle of size 1. -/
def ex_bundle : Bundle :=
  { src := 1, dst := 8, target_id := 2, size := 1, deadline := 30,
    created_at := 0, priority := 0, task_id := 0 }

/-- Concrete contact from node 1 to node 2 over time [0,5] at rate 1. -/
def ex_contact : Contact :=
  { uid := 11, frm := 1, «to» := 2, start := 0, tEnd := 5, rate := 1,
    owlt := 1, volume := 10 }

/-- Concrete contact-close state: one bundle left in the queue for
neighbour 2, all contact volumes at 10. -/
def ex_end_state : ContactEndState :=
  ⟨⟨100, []⟩, [(2, [ex_bundle])], fun _ => 10⟩

/-- Concrete assignment state: an empty queue for neighbour 2, all
volumes at 0, nothing dropped. -/
def ex_assign_state : AssignState := ⟨[(2, [])], fun _ => 0, []⟩

/-- Tasks for the merge examples: a pending local entry... -/
def ex_task_old : Task := { ex_task_narrow with uid := 1, updated_at := 10 }

/-- ...a remote entry dominating it (later `updated_at`, `acquired`)... -/
def ex_task_new : Task :=
  { ex_task_narrow with uid := 1, status := TaskStatus.acquired, updated_at := 12 }

/-- ...and a remote entry under a fresh id. -/
def ex_task_extra : Task := { ex_task_narrow with uid := 2, updated_at := 3 }

/-- C8: a data bundle larger than the remaining buffer capacity is refused
by `bundle_receive`: the receiving node's state — buffer, task table,
update flag and delivered list — comes back unchanged, so the bundle is
not stored, not recorded as delivered even when addressed to this node,
and its hop count is never incremented. -/
theorem bundle_receive_refuses_oversized (uid : Nat) (st : ReceiveState)
    (t_now : ℚ) (b : Bundle) (h : st.buffer.capacity_remaining < b.size) :
    bundle_receive uid st t_now b = st := by
  unfold bundle_receive
  rw [if_pos h]

/-- Witness for C8 at a buffer of capacity 1 and a bundle of size 5
addressed to the receiving node itself. -/
theorem bundle_receive_refuses_oversized_witness :
    ex_recv_state.buffer.capacity_remaining < ex_big_bundle.size ∧
      bundle_receive 8 ex_recv_state 0 ex_big_bundle = ex_recv_state := by
  have h : ex_recv_state.buffer.capacity_remaining < ex_big_bundle.size := by
    simp only [ex_recv_state, ex_big_bundle, Buffer.capacity_remaining,
      List.map_nil, List.sum_nil, sub_zero]
    decide
  exact ⟨h, bundle_receive_refuses_oversized 8 ex_recv_state 0 ex_big_bundle h⟩

/-- C9: a task whose status is `delivered` is never downgraded by a
failure report — `fail_task` leaves the whole analytics state, in
particular the task's status and its originating request's status,
unchanged. -/
theorem fail_task_delivered_noop (st : AnalyticsState) (id : Nat) (t : ℚ)
    (n : Nat) (tk : Task) (h1 : alookup st.tasks id = some tk)
    (h2 : tk.status = TaskStatus.delivered) :
    fail_task st id t n = st := by
  unfold fail_task
  rw [h1]
  simp [h2]

/-- Witness for C9 on a log holding one delivered task. -/
theorem fail_task_delivered_noop_witness :
    alookup ex_analytics.tasks 4 = some ex_task_delivered ∧
      ex_task_delivered.status = TaskStatus.delivered ∧
      fail_task ex_analytics 4 50 2 = ex_analytics :=
  ⟨rfl, rfl, fail_task_delivered_noop ex_analytics 4 50 2 ex_task_delivered rfl rfl⟩

/-- C4: at contact close the code (node.py:242-245) appends the deferred
and still-queued bundles to the buffer but leaves every contact volume —
and even the outbound queue itself — untouched: the residual-volume
debits made for those bundles' routes are NOT undone, contradicting the
claim (and spec §5), which mandates the reversal.  Evaluated at a state
with one bundle left in the queue for neighbour 2. -/
theorem contact_end_keeps_debits :
    (contact_end ex_end_state 2 []).buffer.bundles = [ex_bundle]
    ∧ (contact_end ex_end_state 2 []).outbound_queues = ex_end_state.outbound_queues
    ∧ (contact_end ex_end_state 2 []).volumes = ex_end_state.volumes :=
  ⟨rfl, rfl, rfl⟩

/-- C3 counterexample: a task due for pickup now from the contacted
target, but assigned to node 7, is nevertheless acquired (and a bundle
synthesised) when node 1 meets the target — the code never consults the
assignee, so the claim's "only if ... assignee equal to the node itself"
fails. -/
theorem target_pickup_ignores_assignee :
    (target_contact_procedure 1 5 2 [(0, ex_task_unassigned)] ⟨100, []⟩).1
        = [(0, { ex_task_unassigned with status := TaskStatus.acquired })]
    ∧ (target_contact_procedure 1 5 2 [(0, ex_task_unassigned)] ⟨100, []⟩).2.bundles
        = [mk_pickup_bundle 1 5 2 ex_task_unassigned]
    ∧ ex_task_unassigned.assignee ≠ 1 :=
  ⟨rfl, rfl, by decide⟩

/-- C3 (amended): at the start of a contact with a target, a bundle is
synthesised and pushed into the buffer, and the task marked `acquired`,
for a task in the table if and only if the task's pickup time equals the
current time and its target equals the contact's target — the assignee is
not consulted. -/
theorem target_contact_procedure_spec (uid : Nat) (t_now : ℚ) (target : Nat)
    (tt : List (Nat × Task)) (bf : Buffer) :
    (target_contact_procedure uid t_now target tt bf).1
        = tt.map (fun e =>
            if e.2.pickup_time = t_now ∧ e.2.target = target
            then (e.1, { e.2 with status := TaskStatus.acquired }) else e)
    ∧ (target_contact_procedure uid t_now target tt bf).2.bundles
        = bf.bundles ++ ((tt.map Prod.snd).filter
            (fun task => decide (task.pickup_time = t_now ∧ task.target = target))).map
            (mk_pickup_bundle uid t_now target) := by
  induction tt generalizing bf with
  | nil => simp [target_contact_procedure]
  | cons e rest ih =>
    obtain ⟨id, task⟩ := e
    by_cases h : task.pickup_time = t_now ∧ task.target = target
    · simpa [target_contact_procedure, h, Buffer.append] using ih (bf.append (mk_pickup_bundle uid t_now target task))
    · simpa [target_contact_procedure, h] using ih bf

/-- C6 counterexample: with request duplication enabled, a request whose
deadline (50) exceeds the task's delivery deadline (20) is still folded
into that task — the code checks only the target and the pickup time, so
the claim's "only if ... deadline_delivery at or after the request's
deadline" fails. -/
theorem request_duplication_ignores_deadline :
    (process_request true (fun _ => none) [(4, ex_task_narrow)] false
        ex_request_wide).task_table
      = [(4, { ex_task_narrow with
          request_ids := ex_task_narrow.request_ids ++ [ex_request_wide.uid] })]
    ∧ (process_request true (fun _ => none) [(4, ex_task_narrow)] false
        ex_request_wide).duplicated = true
    ∧ ex_task_narrow.deadline_delivery < ex_request_wide.deadline :=
  ⟨rfl, rfl, by decide⟩

/-- C6 (amended): with request duplication enabled, an incoming request is
appended to the request ids of the first existing task whose target
matches and whose pickup time is at or after the request's creation time
— the task's delivery deadline is not consulted — and in that case no new
task is created (the table's keys are unchanged); when no such task
exists the scheduler is invoked instead. -/
theorem process_request_duplication_spec (schedule_task : Request → Option Task)
    (tt : List (Nat × Task)) (flag : Bool) (r : Request) :
    (∀ tsk, task_already_servicing_request tt r = some tsk →
        process_request true schedule_task tt flag r
            = ⟨append_request_uid r tt, flag, true⟩
        ∧ tsk.target = r.target_id ∧ r.time_created ≤ tsk.pickup_time)
    ∧ (append_request_uid r tt).map Prod.fst = tt.map Prod.fst
    ∧ (task_already_servicing_request tt r = none →
        process_request true schedule_task tt flag r =
          match schedule_task r with
          | some task => ⟨aupdate tt task.uid task, true, false⟩
          | none => ⟨tt, flag, false⟩) := by
  refine ⟨fun tsk h => ?_, ?_, fun h => ?_⟩
  · have hs := List.find?_some h
    have hs' := hs
    simp only [servicing, Bool.and_eq_true, decide_eq_true_eq] at hs'
    exact ⟨by unfold process_request; rw [if_pos rfl, h], hs'.1, hs'.2⟩
  · induction tt with
    | nil => rfl
    | cons e rest ih =>
      by_cases h : servicing e.2 r = true
      · simp [append_request_uid, h]
      · simp [append_request_uid, h, ih]
  · unfold process_request
    rw [if_pos rfl, h]

/-- Witness for C6's amended theorem: the request of `ex_request_wide` is
folded into `ex_task_narrow` without a new task being scheduled. -/
theorem process_request_duplication_spec_witness :
    process_request true (fun _ => none) [(4, ex_task_narrow)] false ex_request_wide
      = ⟨append_request_uid ex_request_wide [(4, ex_task_narrow)], false, true⟩ :=
  ((process_request_duplication_spec (fun _ => none) [(4, ex_task_narrow)] false
      ex_request_wide).1 ex_task_narrow rfl).1

/-- C5: with a non-empty outbound queue the head bundle is popped (FIFO);
it is transmitted if and only if `now + size/rate ≤ contact.end`, in which
case it reaches the receiver at `now + owlt + size/rate` and the sender's
clock advances by the transmission time `size/rate`; otherwise it goes to
the deferred (`failed_bundles`) list and the clock does not move. -/
theorem contact_send_step_spec (uid : Nat) (contact : Contact) (now : ℚ)
    (b : Bundle) (rest failed : List Bundle) :
    ((contact_send_step uid contact now (b :: rest) failed).sent.isSome
        ↔ now + b.size / contact.rate ≤ contact.tEnd)
    ∧ (contact_send_step uid contact now (b :: rest) failed).outbound_queue = rest
    ∧ (now + b.size / contact.rate ≤ contact.tEnd →
        contact_send_step uid contact now (b :: rest) failed =
          ⟨now + b.size / contact.rate, rest, failed,
            some ({ b with previous_node := some uid },
              now + contact.owlt + b.size / contact.rate)⟩)
    ∧ (¬ now + b.size / contact.rate ≤ contact.tEnd →
        contact_send_step uid contact now (b :: rest) failed =
          ⟨now, rest, failed ++ [b], none⟩) := by
  have hiff : contact.tEnd - now ≥ b.size / contact.rate
      ↔ now + b.size / contact.rate ≤ contact.tEnd := by
    constructor <;> intro h <;> linarith
  by_cases h : now + b.size / contact.rate ≤ contact.tEnd
  · have hc : contact.tEnd - now ≥ b.size / contact.rate := hiff.mpr h
    refine ⟨?_, ?_, fun _ => ?_, fun hn => absurd h hn⟩ <;>
      simp [contact_send_step, hc, h]
  · have hc : ¬ contact.tEnd - now ≥ b.size / contact.rate := fun hge => h (hiff.mp hge)
    refine ⟨?_, ?_, fun hy => absurd hy h, fun _ => ?_⟩ <;>
      simp [contact_send_step, hc, h]

/-- Witness for C5: over a contact ending at time 5 with rate 1 and one
light-time 1, a size-1 bundle popped at time 0 is transmitted, arriving
at `0 + 1 + 1/1`. -/
theorem contact_send_step_spec_witness :
    contact_send_step 1 ex_contact 0 [ex_bundle] [] =
      ⟨0 + ex_bundle.size / ex_contact.rate, [], [],
        some ({ ex_bundle with previous_node := some 1 },
          0 + ex_contact.owlt + ex_bundle.size / ex_contact.rate)⟩ :=
  (contact_send_step_spec 1 ex_contact 0 ex_bundle [] []).2.2.1
    (by simp only [ex_bundle, ex_contact, div_one, zero_add]; decide)

/-- Looking a key up after a store: the stored value under the stored key,
the old table elsewhere. -/
theorem alookup_aupdate {β : Type} (l : List (Nat × β)) (k : Nat) (v : β)
    (k' : Nat) :
    alookup (aupdate l k v) k' = if k = k' then some v else alookup l k' := by
  induction l with
  | nil => simp [aupdate, alookup]
  | cons e rest ih =>
    by_cases he : e.1 = k
    · simp only [aupdate, he, if_pos]
      by_cases hk : k = k' <;> simp [alookup, he, hk]
    · simp only [aupdate, he, if_neg, ite_false]
      by_cases he' : e.1 = k'
      · have : ¬ k = k' := fun h => he (h ▸ he')
        simp [alookup, he', this]
      · simp [alookup, he', ih]

/-- A key not named by the remote table is untouched by the merge. -/
theorem merge_lookup_not_mem :
    ∀ (remote : List (Nat × Task)) (tbl : List (Nat × Task)) (flag : Bool)
      (id : Nat), id ∉ remote.map Prod.fst →
      alookup (merge_task_tables tbl flag remote).1 id = alookup tbl id := by
  intro remote
  induction remote with
  | nil => intro tbl flag id _; rfl
  | cons e rest ih =>
    intro tbl flag id h
    obtain ⟨k, u⟩ := e
    have hne : ¬ k = id := fun hik => h (by simp [hik.symm])
    have hrest : id ∉ rest.map Prod.fst := fun hin => h (by simp [hin])
    cases halk : alookup tbl k with
    | none =>
      simp only [merge_task_tables, halk]
      rw [ih _ _ _ hrest, alookup_aupdate, if_neg hne]
    | some l =>
      by_cases hlt : Task.lt l u
      · simp only [merge_task_tables, halk]
        rw [if_pos hlt, ih _ _ _ hrest, alookup_aupdate, if_neg hne]
      · simp only [merge_task_tables, halk]
        rw [if_neg hlt]
        exact ih _ _ _ hrest

/-- Merging writes `merge_value` at every key the remote table names (keys
distinct, as in a Python dict). -/
theorem merge_lookup_mem :
    ∀ (remote : List (Nat × Task)) (tbl : List (Nat × Task)) (flag : Bool)
      (id : Nat) (t : Task), (remote.map Prod.fst).Nodup → (id, t) ∈ remote →
      alookup (merge_task_tables tbl flag remote).1 id
        = some (merge_value (alookup tbl id) t) := by
  intro remote
  induction remote with
  | nil => intro tbl flag id t _ hmem; cases hmem
  | cons e rest ih =>
    intro tbl flag id t hnd hmem
    obtain ⟨k, u⟩ := e
    have hnd2 : (k :: rest.map Prod.fst).Nodup := by
      simpa only [List.map_cons] using hnd
    have hknotin : k ∉ rest.map Prod.fst := (List.nodup_cons.mp hnd2).1
    have hnd' : (rest.map Prod.fst).Nodup := (List.nodup_cons.mp hnd2).2
    rcases List.mem_cons.mp hmem with heq | hmem'
    · injection heq with h1 h2
      subst h1; subst h2
      cases halk : alookup tbl id with
      | none =>
        simp only [merge_task_tables, halk]
        rw [merge_lookup_not_mem rest _ _ _ hknotin, alookup_aupdate, if_pos rfl]
        simp [merge_value]
      | some l =>
        by_cases hlt : Task.lt l t
        · simp only [merge_task_tables, halk]
          rw [if_pos hlt, merge_lookup_not_mem rest _ _ _ hknotin,
            alookup_aupdate, if_pos rfl]
          simp [merge_value, hlt]
        · simp only [merge_task_tables, halk]
          rw [if_neg hlt, merge_lookup_not_mem rest _ _ _ hknotin, halk]
          simp [merge_value, hlt]
    · have hne : ¬ k = id := by
        intro hik
        exact hknotin (by simpa [hik] using List.mem_map_of_mem Prod.fst hmem')
      cases halk : alookup tbl k with
      | none =>
        simp only [merge_task_tables, halk]
        rw [ih _ _ _ _ hnd' hmem', alookup_aupdate, if_neg hne]
      | some l =>
        by_cases hlt : Task.lt l u
        · simp only [merge_task_tables, halk]
          rw [if_pos hlt, ih _ _ _ _ hnd' hmem', alookup_aupdate, if_neg hne]
        · simp only [merge_task_tables, halk]
          rw [if_neg hlt]
          exact ih _ _ _ _ hnd' hmem'

/-- The update flag after a merge: the old flag, or some remote entry
inserted or replaced. -/
theorem merge_flag :
    ∀ (remote : List (Nat × Task)) (tbl : List (Nat × Task)) (flag : Bool),
      (merge_task_tables tbl flag remote).2
        = (flag || remote.any fun e => entry_changes (alookup tbl e.1) e.2) := by
  intro remote
  induction remote with
  | nil => intro tbl flag; simp [merge_task_tables]
  | cons e rest ih =>
    intro tbl flag
    obtain ⟨k, u⟩ := e
    cases halk : alookup tbl k with
    | none =>
      simp only [merge_task_tables, halk]
      rw [ih]
      simp [entry_changes, halk]
    | some l =>
      by_cases hlt : Task.lt l u
      · simp only [merge_task_tables, halk]
        rw [if_pos hlt, ih]
        simp [entry_changes, halk, hlt]
      · have hlt' : Task.lt l u = false := Bool.eq_false_iff.mpr hlt
        simp only [merge_task_tables, halk]
        rw [if_neg hlt, ih]
        simp [entry_changes, halk, hlt']

/-- When a local entry dominates every remote entry aimed at it, the merge
is the identity. -/
theorem merge_no_change (tbl : List (Nat × Task)) (flag : Bool) :
    ∀ remote : List (Nat × Task),
      (∀ e ∈ remote, ∃ l, alookup tbl e.1 = some l ∧ Task.lt l e.2 = false) →
      merge_task_tables tbl flag remote = (tbl, flag) := by
  intro remote
  induction remote with
  | nil => intro _; rfl
  | cons e rest ih =>
    intro h
    obtain ⟨k, u⟩ := e
    obtain ⟨l, hl, hlt⟩ := h (k, u) (List.mem_cons_self _ _)
    simp only [merge_task_tables, hl, hlt]
    simp only [Bool.false_eq_true, if_false]
    exact ih fun e he => h e (List.mem_cons_of_mem _ he)

/-- The modelled dominance order is irreflexive. -/
theorem task_lt_irrefl (t : Task) : Task.lt t t = false := by
  unfold Task.lt
  split_ifs with h1 h2
  · rfl
  · exact absurd h2 (lt_irrefl _)
  · simp

/-- The value a merge leaves behind is never dominated by the remote task
that produced it. -/
theorem merge_value_not_lt (o : Option Task) (t : Task) :
    Task.lt (merge_value o t) t = false := by
  cases o with
  | none => simpa [merge_value] using task_lt_irrefl t
  | some l =>
    by_cases h : Task.lt l t
    · simp [merge_value, h, task_lt_irrefl]
    · simp only [merge_value, h, if_false]
      exact Bool.eq_false_iff.mpr h

/-- C2: for every entry `(id, task')` of a received task table (keys
distinct, as in a Python dict): if `id` is absent locally a copy of
`task'` is inserted; if `id` is present the local entry is replaced by
`task'` exactly when the local entry is strictly below `task'` in the
task dominance order, and kept otherwise; and the update flag is set
exactly when some entry was inserted or replaced. -/
theorem merge_task_tables_spec (tbl remote : List (Nat × Task))
    (hnd : (remote.map Prod.fst).Nodup) :
    (∀ id t, (id, t) ∈ remote → alookup tbl id = none →
        alookup (merge_task_tables tbl false remote).1 id = some t)
    ∧ (∀ id t l, (id, t) ∈ remote → alookup tbl id = some l →
        alookup (merge_task_tables tbl false remote).1 id
          = some (if Task.lt l t then t else l))
    ∧ ((merge_task_tables tbl false remote).2 = true ↔
        ∃ e ∈ remote, alookup tbl e.1 = none
          ∨ ∃ l, alookup tbl e.1 = some l ∧ Task.lt l e.2 = true) := by
  refine ⟨fun id t hm h0 => ?_, fun id t l hm hs => ?_, ?_⟩
  · rw [merge_lookup_mem remote tbl false id t hnd hm, h0]
    simp [merge_value]
  · rw [merge_lookup_mem remote tbl false id t hnd hm, hs]
    simp [merge_value]
  · rw [merge_flag]
    simp only [Bool.false_or, List.any_eq_true]
    refine exists_congr fun e => and_congr_right fun _ => ?_
    cases he : alookup tbl e.1 <;> simp [entry_changes, he]

/-- Witness for C2: a dominated local entry is replaced and a fresh id
inserted. -/
theorem merge_task_tables_spec_witness :
    alookup (merge_task_tables [(1, ex_task_old)] false
        [(1, ex_task_new), (2, ex_task_extra)]).1 2 = some ex_task_extra
    ∧ alookup (merge_task_tables [(1, ex_task_old)] false
        [(1, ex_task_new), (2, ex_task_extra)]).1 1
      = some (if Task.lt ex_task_old ex_task_new then ex_task_new else ex_task_old) :=
  ⟨(merge_task_tables_spec [(1, ex_task_old)] [(1, ex_task_new), (2, ex_task_extra)]
      (by decide)).1 2 ex_task_extra (by decide) rfl,
    (merge_task_tables_spec [(1, ex_task_old)] [(1, ex_task_new), (2, ex_task_extra)]
      (by decide)).2.1 1 ex_task_new ex_task_old (by decide) rfl⟩

/-- C7: the merge is idempotent — merging the same remote table (keys
distinct) a second time leaves the local task table exactly as after the
first merge and inserts or replaces nothing (the update flag stays
down), the dominance order being irreflexive (`task_lt_irrefl`). -/
theorem merge_task_tables_idem (tbl remote : List (Nat × Task))
    (hnd : (remote.map Prod.fst).Nodup) :
    merge_task_tables (merge_task_tables tbl false remote).1 false remote
      = ((merge_task_tables tbl false remote).1, false) := by
  apply merge_no_change
  intro e he
  exact ⟨merge_value (alookup tbl e.1) e.2,
    merge_lookup_mem remote tbl false e.1 e.2 hnd he,
    merge_value_not_lt _ _⟩

/-- Witness for C7 on the concrete tables of the C2 witness. -/
theorem merge_task_tables_idem_witness :
    merge_task_tables
        (merge_task_tables [(1, ex_task_old)] false
          [(1, ex_task_new), (2, ex_task_extra)]).1 false
        [(1, ex_task_new), (2, ex_task_extra)]
      = ((merge_task_tables [(1, ex_task_old)] false
          [(1, ex_task_new), (2, ex_task_extra)]).1, false) :=
  merge_task_tables_idem [(1, ex_task_old)] [(1, ex_task_new), (2, ex_task_extra)]
    (by decide)

/-- The `continue`-driven selection loop picks exactly the first candidate
whose best delivery time meets the deadline and whose volume holds the
bundle. -/
theorem select_route_eq_find (b : Bundle) :
    ∀ l : List Route, select_route b l
      = l.find? (fun r => decide (r.best_delivery_time ≤ b.deadline)
          && decide (b.size ≤ r.volume)) := by
  intro l
  induction l with
  | nil => rfl
  | cons r rest ih =>
    by_cases h1 : b.deadline < r.best_delivery_time
    · have hb : decide (r.best_delivery_time ≤ b.deadline) = false := by
        simp [not_le.mpr h1]
      simp [select_route, h1, List.find?_cons, hb, ih]
    · by_cases h2 : r.volume < b.size
      · have hb : decide (b.size ≤ r.volume) = false := by simp [not_le.mpr h2]
        simp [select_route, h1, h2, List.find?_cons, hb, ih]
      · have hb1 : decide (r.best_delivery_time ≤ b.deadline) = true := by
          simp [not_lt.mp h1]
        have hb2 : decide (b.size ≤ r.volume) = true := by simp [not_lt.mp h2]
        simp [select_route, h1, h2, List.find?_cons, hb1, hb2]

/-- Pointwise effect of debiting a route's hops on the volume map. -/
theorem debit_hops_spec :
    ∀ (hops : List Contact) (vols : Nat → ℚ) (sz : ℚ) (k : Nat),
      debit_hops vols hops sz k
        = vols k - sz * ((hops.filter fun h => decide (h.uid = k)).length : ℚ) := by
  intro hops
  induction hops with
  | nil => intro vols sz k; simp [debit_hops]
  | cons c hs ih =>
    intro vols sz k
    have hstep : debit_hops vols (c :: hs) sz
        = debit_hops (fun k' => if k' = c.uid then vols k' - sz else vols k') hs sz := by
      simp [debit_hops]
    rw [hstep, ih]
    by_cases hk : c.uid = k
    · have hfilter : List.filter (fun h => decide (h.uid = k)) (c :: hs)
          = c :: List.filter (fun h => decide (h.uid = k)) hs := by
        simp [List.filter_cons, hk]
      rw [hfilter, if_pos hk.symm]
      simp only [List.length_cons, Nat.cast_add, Nat.cast_one]
      ring
    · have hk' : ¬ k = c.uid := fun hh => hk hh.symm
      have hfilter : List.filter (fun h => decide (h.uid = k)) (c :: hs)
          = List.filter (fun h => decide (h.uid = k)) hs := by
        simp [List.filter_cons, hk]
      rw [hfilter, if_neg hk']

/-- C1: each bundle drained from the buffer during a bundle-assignment tick
is appended to the outbound queue of the first hop's receiver of the first
candidate route whose best delivery time is at most the bundle's deadline
and whose volume is at least the bundle's size, with the bundle's size
debited from every hop of that route; a bundle for which no candidate
satisfies both conditions joins the drop list, and the tick handles the
drained bundles one after the other. -/
theorem bundle_assignment_route_choice (route_table : Nat → List Route)
    (plan : List Contact) (uid : Nat) (t_now : ℚ) (st : AssignState) (b : Bundle) :
    (∀ r, (candidate_routes t_now uid plan b (route_table b.dst) []).find?
          (fun r => decide (r.best_delivery_time ≤ b.deadline)
            && decide (b.size ≤ r.volume)) = some r →
        assign_bundle route_table plan uid t_now st b
          = { st with
              outbound_queues := enqueue_obq st.outbound_queues r.hops.headI.«to» b
              volumes := debit_hops st.volumes r.hops b.size })
    ∧ ((candidate_routes t_now uid plan b (route_table b.dst) []).find?
          (fun r => decide (r.best_delivery_time ≤ b.deadline)
            && decide (b.size ≤ r.volume)) = none →
        assign_bundle route_table plan uid t_now st b
          = { st with drop_list := st.drop_list ++ [b] })
    ∧ (∀ (vols : Nat → ℚ) (hops : List Contact) (sz : ℚ) (k : Nat),
        debit_hops vols hops sz k
          = vols k - sz * ((hops.filter fun h => decide (h.uid = k)).length : ℚ))
    ∧ (∀ rest : List Bundle,
        bundle_assignment route_table plan uid t_now (b :: rest) st
          = bundle_assignment route_table plan uid t_now rest
              (assign_bundle route_table plan uid t_now st b)) := by
  refine ⟨fun r h => ?_, fun h => ?_,
    fun vols hops sz k => debit_hops_spec hops vols sz k, fun rest => rfl⟩
  · unfold assign_bundle
    rw [select_route_eq_find, h]
  · unfold assign_bundle
    rw [select_route_eq_find, h]

/-- Witness for C1: with an empty route table the bundle has no candidate
route and is dropped. -/
theorem bundle_assignment_route_choice_witness :
    assign_bundle (fun _ => []) [] 1 0 ex_assign_state ex_bundle
      = { ex_assign_state with
          drop_list := ex_assign_state.drop_list ++ [ex_bundle] } :=
  (bundle_assignment_route_choice (fun _ => []) [] 1 0 ex_assign_state
      ex_bundle).2.1
    (by simp [candidate_routes, List.mergeSort_nil])

/-- Storing at a key already present keeps the key sequence. -/
theorem aupdate_keys {β : Type} :
    ∀ (l : List (Nat × β)) (k : Nat) (v : β), (∃ q, alookup l k = some q) →
      (aupdate l k v).map Prod.fst = l.map Prod.fst := by
  intro l
  induction l with
  | nil => intro k v hq; obtain ⟨q, h⟩ := hq; simp [alookup] at h
  | cons e rest ih =>
    intro k v hq
    obtain ⟨q, h⟩ := hq
    by_cases he : e.1 = k
    · simp [aupdate, he]
    · simp only [alookup, he, if_neg, ite_false] at h
      simp [aupdate, he, ih k v ⟨q, h⟩]

/-- Appending to a present queue keeps the key sequence. -/
theorem enqueue_obq_keys (obqs : List (Nat × List Bundle)) (n : Nat) (b : Bundle) :
    (enqueue_obq obqs n b).map Prod.fst = obqs.map Prod.fst := by
  unfold enqueue_obq
  cases h : alookup obqs n with
  | none => rfl
  | some q => exact aupdate_keys obqs n (q ++ [b]) ⟨q, h⟩

/-- Appending a bundle to a present queue adds exactly that bundle to the
flattened queue contents. -/
theorem enqueue_obq_flatten :
    ∀ (obqs : List (Nat × List Bundle)) (n : Nat) (b : Bundle),
      n ∈ obqs.map Prod.fst →
      List.Perm (obq_flatten (enqueue_obq obqs n b)) (obq_flatten obqs ++ [b]) := by
  intro obqs
  induction obqs with
  | nil => intro n b h; simp at h
  | cons e rest ih =>
    intro n b h
    by_cases he : e.1 = n
    · have hstep : enqueue_obq (e :: rest) n b = (n, e.2 ++ [b]) :: rest := by
        simp [enqueue_obq, alookup, aupdate, he]
      rw [hstep]
      simp only [obq_flatten, List.map_cons, List.flatten_cons]
      simpa [List.append_assoc] using
        List.Perm.append_left e.2
          (@List.perm_append_comm _ [b] ((rest.map Prod.snd).flatten))
    · have hstep : enqueue_obq (e :: rest) n b = e :: enqueue_obq rest n b := by
        cases halk : alookup rest n with
        | none => simp [enqueue_obq, alookup, he, halk]
        | some q => simp [enqueue_obq, alookup, aupdate, he, halk]
      rw [hstep]
      have h2 : n ∈ e.1 :: rest.map Prod.fst := by
        simpa only [List.map_cons] using h
      have h' : n ∈ rest.map Prod.fst := by
        rcases List.mem_cons.mp h2 with h1 | h1
        · exact absurd h1.symm he
        · exact h1
      simp only [obq_flatten, List.map_cons, List.flatten_cons]
      simpa [obq_flatten, List.append_assoc] using
        List.Perm.append_left e.2 (ih n b h')

/-- C10: a bundle-assignment run drains the buffer completely, and the
bundles that were in the buffer are distributed over the outbound queues
and the drop list with no duplication and no loss: the final queue and
drop contents are a permutation of the initial ones plus the initial
buffer.  (The hypothesis says every selected route's first hop leads to an
existing outbound queue, as arranged by the node constructor.) -/
theorem bundle_assignment_conservation (route_table : Nat → List Route)
    (plan : List Contact) (uid : Nat) (t_now : ℚ) :
    ∀ (buffer : List Bundle) (st : AssignState),
      (∀ b r, select_route b
            (candidate_routes t_now uid plan b (route_table b.dst) []) = some r →
          r.hops.headI.«to» ∈ st.outbound_queues.map Prod.fst) →
      (bundle_assignment route_table plan uid t_now buffer st).1 = []
      ∧ List.Perm
          (obq_flatten
              (bundle_assignment route_table plan uid t_now buffer st).2.outbound_queues
            ++ (bundle_assignment route_table plan uid t_now buffer st).2.drop_list)
          (obq_flatten st.outbound_queues ++ st.drop_list ++ buffer) := by
  intro buffer
  induction buffer with
  | nil =>
    intro st _
    refine ⟨rfl, ?_⟩
    simp only [bundle_assignment, List.append_nil]
    exact List.Perm.refl _
  | cons b rest ih =>
    intro st h
    cases hsel : select_route b
        (candidate_routes t_now uid plan b (route_table b.dst) []) with
    | some r =>
      have hkey : r.hops.headI.«to» ∈ st.outbound_queues.map Prod.fst := h b r hsel
      have hstep : assign_bundle route_table plan uid t_now st b
          = { st with
              outbound_queues := enqueue_obq st.outbound_queues r.hops.headI.«to» b
              volumes := debit_hops st.volumes r.hops b.size } := by
        unfold assign_bundle
        rw [hsel]
      have hkeys : (enqueue_obq st.outbound_queues r.hops.headI.«to» b).map Prod.fst
          = st.outbound_queues.map Prod.fst := enqueue_obq_keys _ _ _
      obtain ⟨ih1, ih2⟩ := ih
        { st with
          outbound_queues := enqueue_obq st.outbound_queues r.hops.headI.«to» b
          volumes := debit_hops st.volumes r.hops b.size }
        (fun b' r' hs => by rw [hkeys]; exact h b' r' hs)
      have hba : bundle_assignment route_table plan uid t_now (b :: rest) st
          = bundle_assignment route_table plan uid t_now rest
              { st with
                outbound_queues := enqueue_obq st.outbound_queues r.hops.headI.«to» b
                volumes := debit_hops st.volumes r.hops b.size } := by
        simp only [bundle_assignment]
        rw [hstep]
      refine ⟨by rw [hba]; exact ih1, ?_⟩
      rw [hba]
      have e1 : List.Perm
          (obq_flatten (enqueue_obq st.outbound_queues r.hops.headI.«to» b)
            ++ (st.drop_list ++ rest))
          ((obq_flatten st.outbound_queues ++ [b]) ++ (st.drop_list ++ rest)) :=
        (enqueue_obq_flatten _ _ _ hkey).append_right _
      have e2 : List.Perm ([b] ++ (st.drop_list ++ rest))
          (st.drop_list ++ (b :: rest)) := by
        simpa using (@List.perm_middle _ b st.drop_list rest).symm
      have e3 : List.Perm
          ((obq_flatten st.outbound_queues ++ [b]) ++ (st.drop_list ++ rest))
          (obq_flatten st.outbound_queues ++ (st.drop_list ++ (b :: rest))) := by
        simpa [List.append_assoc] using
          List.Perm.append_left (obq_flatten st.outbound_queues) e2
      have hmain := (by simpa [List.append_assoc] using ih2 :
        List.Perm
          (obq_flatten
              (bundle_assignment route_table plan uid t_now rest
                { st with
                  outbound_queues := enqueue_obq st.outbound_queues r.hops.headI.«to» b
                  volumes := debit_hops st.volumes r.hops b.size }).2.outbound_queues
            ++ (bundle_assignment route_table plan uid t_now rest
                { st with
                  outbound_queues := enqueue_obq st.outbound_queues r.hops.headI.«to» b
                  volumes := debit_hops st.volumes r.hops b.size }).2.drop_list)
          (obq_flatten (enqueue_obq st.outbound_queues r.hops.headI.«to» b)
            ++ (st.drop_list ++ rest)))
      simpa [List.append_assoc] using hmain.trans (e1.trans e3)
    | none =>
      have hstep : assign_bundle route_table plan uid t_now st b
          = { st with drop_list := st.drop_list ++ [b] } := by
        unfold assign_bundle
        rw [hsel]
      obtain ⟨ih1, ih2⟩ := ih { st with drop_list := st.drop_list ++ [b] }
        (fun b' r' hs => h b' r' hs)
      have hba : bundle_assignment route_table plan uid t_now (b :: rest) st
          = bundle_assignment route_table plan uid t_now rest
              { st with drop_list := st.drop_list ++ [b] } := by
        simp only [bundle_assignment]
        rw [hstep]
      refine ⟨by rw [hba]; exact ih1, ?_⟩
      rw [hba]
      simpa [List.append_assoc] using ih2

/-- Witness for C10: with an empty route table the single buffered bundle
is dropped, the buffer ends empty and the contents are conserved. -/
theorem bundle_assignment_conservation_witness :
    (bundle_assignment (fun _ => []) [] 1 0 [ex_bundle] ex_assign_state).1 = []
    ∧ List.Perm
        (obq_flatten
            (bundle_assignment (fun _ => []) [] 1 0 [ex_bundle]
              ex_assign_state).2.outbound_queues
          ++ (bundle_assignment (fun _ => []) [] 1 0 [ex_bundle]
              ex_assign_state).2.drop_list)
        (obq_flatten ex_assign_state.outbound_queues
          ++ ex_assign_state.drop_list ++ [ex_bundle]) :=
  bundle_assignment_conservation (fun _ => []) [] 1 0 [ex_bundle] ex_assign_state
    (fun b r hs => by simp [select_route, candidate_routes, List.mergeSort_nil] at hs)

end CGS
